import Mathlib

/-!
Verification of the background process execution and output-streaming pipeline
of the Secure File Organizer GUI (`organizer_gui.py`), together with its
live-log tailer, backup listing and organizer-launch validation.

The Python source is shallowly embedded: the environment observed by each
function (whether `Popen` raises, the lines the child process produces,
whether an I/O error interrupts streaming, the contents of files on disk,
which directory entries exist) is passed in as explicit data, and the
functions are translated statement by statement.
-/

namespace OrganizerGui

/-! ### Process Runner (`run_process`, lines 48-74)

`subprocess.Popen` can fail before any output is produced; the source code
catches only `FileNotFoundError`.  Any other launch-time exception (for
example `PermissionError` for a file that exists but is not executable)
propagates out of `run_process`.  After a successful launch, iterating
`proc.stdout` either yields all lines and then the process exit code, or
raises mid-stream; the `except Exception` block converts the latter into a
diagnostic plus return code 1. -/

/-- Outcome of iterating `proc.stdout` after a successful launch:
either every line arrives and the process exits with `retcode`,
or reading raises after some prefix of lines. -/
inductive StreamOutcome where
  | allLines (lines : List String)
  | failsAfter (lines : List String) (err : String)
deriving DecidableEq

/-- Outcome of the `subprocess.Popen` call itself. `fileNotFound` is the
one exception class the source catches; `otherFailure` is any other
launch-time exception (e.g. `PermissionError`). -/
inductive LaunchOutcome where
  | ok (stream : StreamOutcome) (retcode : Int)
  | fileNotFound (err : String)
  | otherFailure (err : String)
deriving DecidableEq

/-- Function `run_process(cmd_list, out_queue)` (lines 48-74).  Returns the list of
strings put on `out_queue`, paired with either the returned integer
return-code (`Except.ok`) or an uncaught exception escaping the function
(`Except.error`). -/
def run_process (cmd_list : List String) (launch : LaunchOutcome) :
    List String × Except String Int :=
  match launch with
  | .fileNotFound e =>
      (["[ERROR] Script not found: " ++ cmd_list.headD "" ++ "\n" ++ e ++ "\n"],
       Except.ok 127)
  | .otherFailure e => ([], Except.error e)
  | .ok stream rc =>
      match stream with
      | .allLines ls => (ls, Except.ok rc)
      | .failsAfter ls e =>
          (ls ++ ["[ERROR] Running command failed: " ++ e ++ "\n"], Except.ok 1)

/-! ### Relay Queue items and the worker thread
(`OrganizerApp._background_run_and_stream`, lines 383-413) -/

/-- An item on the relay queue `q`: a text chunk (a string put by
`run_process`), the `None` sentinel, or the `("__RC__", rc)` tuple. -/
inductive QItem where
  | chunk (s : String)
  | sentinel
  | rc (code : Int)
deriving DecidableEq

/-- Is this queue item the `("__RC__", rc)` completion tuple? -/
def QItem.isRC : QItem → Bool
  | .rc _ => true
  | _ => false

/-- The `worker` closure (lines 385-388): runs `run_process`, then puts the
`None` sentinel and the `("__RC__", rc)` tuple.  If `run_process` raises, the
worker thread dies before either put, so the queue holds only the chunks. -/
def worker (cmd : List String) (launch : LaunchOutcome) : List QItem :=
  match run_process cmd launch with
  | (chunks, Except.ok code) => chunks.map QItem.chunk ++ [QItem.sentinel, QItem.rc code]
  | (chunks, Except.error _) => chunks.map QItem.chunk

/-! ### Polling Drain Loop (`poll`, lines 394-413)

One call to `poll` repeatedly takes items with `get_nowait` until the queue
is empty (reschedule, `done = false`) or the `("__RC__", rc)` tuple is seen
(invoke the completion callback and return, `done = true`).  Strings are
appended to the text widget; the `None` sentinel is skipped by the
`continue`.  We record the visible actions as an event trace. -/

/-- A visible action of the drain loop: a `text_widget.insert` of a chunk, or
the invocation of the completion callback with the exit code. -/
inductive Ev where
  | append (s : String)
  | complete (code : Int)
deriving DecidableEq

/-- One execution of `poll` over the items currently available in the queue:
returns the event trace and whether the completion tuple was reached
(after which `poll` returns and never reschedules). -/
def pollOnce : List QItem → List Ev × Bool
  | [] => ([], false)
  | QItem.sentinel :: rest => pollOnce rest
  | QItem.rc code :: _ => ([Ev.complete code], true)
  | QItem.chunk s :: rest =>
      let r := pollOnce rest
      (Ev.append s :: r.1, r.2)

/-- The rescheduled drain loop across ticks: `batches` lists, for each tick,
the items that became available in the queue since the previous tick.  Once
`poll` has seen the completion tuple it returns without calling
`self.after`, so later batches are never drained. -/
def drainRun : List (List QItem) → List Ev × Bool
  | [] => ([], false)
  | b :: bs =>
      let r := pollOnce b
      if r.2 then (r.1, true)
      else
        let r2 := drainRun bs
        (r.1 ++ r2.1, r2.2)

theorem pollOnce_cons_chunk (s : String) (l : List QItem) :
    pollOnce (QItem.chunk s :: l) = (Ev.append s :: (pollOnce l).1, (pollOnce l).2) := rfl

theorem drainRun_cons (b : List QItem) (bs : List (List QItem)) :
    drainRun (b :: bs) =
      if (pollOnce b).2 then ((pollOnce b).1, true)
      else ((pollOnce b).1 ++ (drainRun bs).1, (drainRun bs).2) := rfl

theorem pollOnce_append (xs ys : List QItem) :
    pollOnce (xs ++ ys) =
      if (pollOnce xs).2 then pollOnce xs
      else ((pollOnce xs).1 ++ (pollOnce ys).1, (pollOnce ys).2) := by
  induction xs with
  | nil => simp [pollOnce]
  | cons x xs ih =>
    cases x with
    | sentinel => simpa [pollOnce] using ih
    | rc code => simp [pollOnce]
    | chunk s =>
      rw [List.cons_append, pollOnce_cons_chunk, ih, pollOnce_cons_chunk]
      by_cases h : (pollOnce xs).2 <;> simp [h]

/-- Draining batch by batch is the same as draining the concatenation:
splitting the queue contents across ticks does not change the trace. -/
theorem drainRun_eq_pollOnce_flatten (bs : List (List QItem)) :
    drainRun bs = pollOnce bs.flatten := by
  induction bs with
  | nil => simp [drainRun, pollOnce]
  | cons b bs ih =>
    rw [List.flatten_cons, drainRun_cons, ih, pollOnce_append]
    by_cases h : (pollOnce b).2 <;> simp [h, Prod.ext_iff]

/-- Draining a canonical invocation: the enqueued chunks in order, then the
sentinel, then the completion tuple. -/
theorem pollOnce_canonical (cs : List String) (code : Int) :
    pollOnce (cs.map QItem.chunk ++ [QItem.sentinel, QItem.rc code]) =
      (cs.map Ev.append ++ [Ev.complete code], true) := by
  induction cs with
  | nil => rfl
  | cons c cs ih => simp [pollOnce, ih]

/-! ### Display surfaces (`tk.Text` widgets) -/

/-- A display surface: the list of strings inserted at `END` since the last
`delete("1.0", END)`. -/
structure OutputPane where
  display : List String
deriving DecidableEq

/-- Method `OrganizerApp.clear_output_text` (lines 418-419): `text_out.delete("1.0", END)`. -/
def clear_output_text (p : OutputPane) : OutputPane :=
  { p with display := [] }

/-- Effect of one drain event on the display surface: a chunk is inserted at
the end; the completion callback does not touch the text widget. -/
def applyEv (p : OutputPane) : Ev → OutputPane
  | Ev.append s => { p with display := p.display ++ [s] }
  | Ev.complete _ => p

/-- One drain tick applied to a display surface, given the items currently
available in the relay queue. -/
def drainTick (pending : List QItem) (p : OutputPane) : OutputPane :=
  (pollOnce pending).1.foldl applyEv p

theorem pollOnce_chunks (cs : List String) :
    pollOnce (cs.map QItem.chunk) = (cs.map Ev.append, false) := by
  induction cs with
  | nil => rfl
  | cons c cs ih => simp [pollOnce, ih]

theorem foldl_applyEv_appends (cs : List String) (p : OutputPane) :
    ((cs.map Ev.append).foldl applyEv p).display = p.display ++ cs := by
  induction cs generalizing p with
  | nil => simp
  | cons c cs ih => simp [applyEv, ih]

/-- C2: for every invocation enqueueing chunks `cs` and then its completion
signal, however the queue contents are split across drain ticks, the drain
loop appends the chunks in the exact order enqueued and then — strictly after
all of them — invokes the completion callback exactly once with the carried
exit code; the completion tuple is the last item drained. -/
theorem drain_loop_ordering (cs : List String) (code : Int)
    (bs : List (List QItem))
    (h : bs.flatten = cs.map QItem.chunk ++ [QItem.sentinel, QItem.rc code]) :
    drainRun bs = (cs.map Ev.append ++ [Ev.complete code], true) := by
  rw [drainRun_eq_pollOnce_flatten, h, pollOnce_canonical]

/-- Witness for C2: a two-tick schedule for the chunks `["a", "b"]` with exit
code 0 drains to exactly the two appends followed by one completion. -/
theorem drain_loop_ordering_witness :
    drainRun [[QItem.chunk "a"], [QItem.chunk "b", QItem.sentinel, QItem.rc 0]] =
      ([Ev.append "a", Ev.append "b", Ev.complete 0], true) :=
  drain_loop_ordering ["a", "b"] 0
    [[QItem.chunk "a"], [QItem.chunk "b", QItem.sentinel, QItem.rc 0]] rfl

/-- C8: clearing the output surface followed by zero further writes leaves it
empty; and chunks still sitting in the relay queue when the surface is
cleared are not lost — the next drain tick appends exactly those chunks. -/
theorem clear_output_idempotent_no_loss (p : OutputPane) (cs : List String) :
    (clear_output_text p).display = [] ∧
    (drainTick (cs.map QItem.chunk) (clear_output_text p)).display = cs := by
  constructor
  · rfl
  · rw [drainTick, pollOnce_chunks]
    simpa using foldl_applyEv_appends cs (clear_output_text p)

/-- C1 counterexample: a launch failure other than `FileNotFoundError` (for a
script that exists but is not executable, `Popen` raises `PermissionError`,
which `except FileNotFoundError` does not catch) escapes `run_process`
uncaught, and the consumer never observes a completion signal. -/
theorem launch_other_failure_raises :
    run_process ["./organize_files.sh"]
        (LaunchOutcome.otherFailure "PermissionError: [Errno 13] Permission denied") =
      ([], Except.error "PermissionError: [Errno 13] Permission denied") ∧
    (worker ["./organize_files.sh"]
        (LaunchOutcome.otherFailure "PermissionError: [Errno 13] Permission denied")).filter
        QItem.isRC = [] :=
  ⟨rfl, rfl⟩

/-- C1 (amended): when the executable cannot be found — the launch raises
`FileNotFoundError`, the one class the source catches — `run_process`
enqueues exactly one diagnostic chunk and returns the sentinel code 127
without raising, and the consumer observes exactly one completion signal,
carrying 127.  Launch failures of any other class are not converted. -/
theorem launch_not_found_spec (cmd : List String) (e : String) :
    (run_process cmd (LaunchOutcome.fileNotFound e)).1.length = 1 ∧
    (run_process cmd (LaunchOutcome.fileNotFound e)).2 = Except.ok 127 ∧
    worker cmd (LaunchOutcome.fileNotFound e) =
      [QItem.chunk ("[ERROR] Script not found: " ++ cmd.headD "" ++ "\n" ++ e ++ "\n"),
       QItem.sentinel, QItem.rc 127] ∧
    (worker cmd (LaunchOutcome.fileNotFound e)).filter QItem.isRC = [QItem.rc 127] :=
  ⟨rfl, rfl, rfl, rfl⟩

/-- C6: if reading the child's output raises after the process has started,
`run_process` enqueues the lines read so far plus one diagnostic chunk,
returns the generic failure code 1, and the consumer observes exactly one
completion signal carrying 1. -/
theorem stream_failure_spec (cmd : List String) (ls : List String) (e : String) (rc : Int) :
    (run_process cmd (LaunchOutcome.ok (StreamOutcome.failsAfter ls e) rc)).1 =
      ls ++ ["[ERROR] Running command failed: " ++ e ++ "\n"] ∧
    (run_process cmd (LaunchOutcome.ok (StreamOutcome.failsAfter ls e) rc)).2 =
      Except.ok 1 ∧
    worker cmd (LaunchOutcome.ok (StreamOutcome.failsAfter ls e) rc) =
      (ls ++ ["[ERROR] Running command failed: " ++ e ++ "\n"]).map QItem.chunk ++
        [QItem.sentinel, QItem.rc 1] :=
  ⟨rfl, rfl, rfl⟩

/-! ### Python string primitives, modelled on the character list

Python compares strings lexicographically by code point, `str.strip()`
removes leading and trailing whitespace, and `str.lower()` lowercases
characterwise.  These are modelled structurally on `String.data` so that
every definition evaluates by kernel reduction. -/

/-- Python string `<=`: lexicographic comparison by code point. -/
def charsLe : List Char → List Char → Bool
  | [], _ => true
  | _ :: _, [] => false
  | a :: as, b :: bs =>
      if a.toNat < b.toNat then true
      else if b.toNat < a.toNat then false
      else charsLe as bs

/-- Python `a <= b` on strings. -/
def pyStrLe (a b : String) : Bool :=
  charsLe a.data b.data

/-- Python `s.strip()`: remove leading and trailing whitespace. -/
def pyStrip (s : String) : String :=
  ⟨((s.data.dropWhile Char.isWhitespace).reverse.dropWhile Char.isWhitespace).reverse⟩

theorem charsLe_total (a b : List Char) :
    charsLe a b = true ∨ charsLe b a = true := by
  induction a generalizing b with
  | nil => left; rfl
  | cons x xs ih =>
    cases b with
    | nil => right; rfl
    | cons y ys =>
      rcases Nat.lt_trichotomy x.toNat y.toNat with h | h | h
      · left; simp [charsLe, h]
      · have h1 : ¬ x.toNat < y.toNat := by omega
        have h2 : ¬ y.toNat < x.toNat := by omega
        rcases ih ys with hc | hc
        · left; simp [charsLe, h1, h2, hc]
        · right; simp [charsLe, h1, h2, hc]
      · right; simp [charsLe, h]

theorem charsLe_trans {a b c : List Char} (h1 : charsLe a b = true)
    (h2 : charsLe b c = true) : charsLe a c = true := by
  induction a generalizing b c with
  | nil => rfl
  | cons x xs ih =>
    cases b with
    | nil => simp [charsLe] at h1
    | cons y ys =>
      cases c with
      | nil => simp [charsLe] at h2
      | cons z zs =>
        simp only [charsLe] at h1 h2 ⊢
        by_cases hxy : x.toNat < y.toNat
        · by_cases hyz : y.toNat < z.toNat
          · simp [Nat.lt_trans hxy hyz]
          · by_cases hzy : z.toNat < y.toNat
            · simp [hyz, hzy] at h2
            · have hxz : x.toNat < z.toNat := by omega
              simp [hxz]
        · by_cases hyx : y.toNat < x.toNat
          · simp [hxy, hyx] at h1
          · have h1t : charsLe xs ys = true := by simpa [hxy, hyx] using h1
            by_cases hyz : y.toNat < z.toNat
            · have hxz : x.toNat < z.toNat := by omega
              simp [hxz]
            · by_cases hzy : z.toNat < y.toNat
              · simp [hyz, hzy] at h2
              · have h2t : charsLe ys zs = true := by simpa [hyz, hzy] using h2
                have h3 : ¬ x.toNat < z.toNat := by omega
                have h4 : ¬ z.toNat < x.toNat := by omega
                simp [h3, h4, ih h1t h2t]

instance : IsTotal String (fun a b => pyStrLe b a = true) :=
  ⟨fun a b => charsLe_total b.data a.data⟩

instance : IsTrans String (fun a b => pyStrLe b a = true) :=
  ⟨fun _ _ _ h1 h2 => charsLe_trans h2 h1⟩

/-! ### Backup Restorer listing (`OrganizerApp.refresh_backups`, lines 442-453)

The method clears the listbox, returns early when the chosen directory is
empty or has no `backups` subdirectory (leaving the list empty), and
otherwise runs `sorted(os.listdir(backups_dir), reverse=True)` and inserts
every entry whose lowercased name ends in `".zip"`. -/

/-- Test `f.lower().endswith(".zip")` (line 452). -/
def hasZipExt (f : String) : Bool :=
  List.isSuffixOf ".zip".data (f.data.map Char.toLower)

/-- Method `refresh_backups` (lines 442-453), as the list of names inserted into the
listbox.  `listing = none` models the early returns (empty directory field or
missing `backups` subdirectory); `listing = some entries` models
`os.listdir(backups_dir)`; `sorted(..., reverse=True)` is descending
code-point order. -/
def refresh_backups (listing : Option (List String)) : List String :=
  match listing with
  | none => []
  | some entries =>
      (List.insertionSort (fun a b => pyStrLe b a = true) entries).filter
        (fun f => hasZipExt f)

/-- C4: a missing `backups` subdirectory yields an empty list, not an error;
in general the listing is exactly the `.zip`-named entries of the directory
(a permutation of the filter), in descending lexicographic name order
(newest-first under the naming convention); and on the directory
`{backup_2024.zip, backup_2023.zip, notes.txt}` it is exactly
`[backup_2024.zip, backup_2023.zip]`. -/
theorem backups_listing_spec :
    refresh_backups none = [] ∧
    (∀ entries : List String,
      (refresh_backups (some entries)).Pairwise (fun a b => pyStrLe b a = true) ∧
      List.Perm (refresh_backups (some entries))
        (entries.filter (fun f => hasZipExt f))) ∧
    refresh_backups (some ["backup_2024.zip", "backup_2023.zip", "notes.txt"]) =
      ["backup_2024.zip", "backup_2023.zip"] := by
  refine ⟨rfl, fun entries => ⟨?_, ?_⟩, ?_⟩
  · exact (List.sorted_insertionSort _ entries).filter _
  · exact (List.perm_insertionSort (fun a b => pyStrLe b a = true) entries).filter _
  · decide

/-! ### Organizer launch validation (`OrganizerApp.run_organizer`, lines 313-336)

The handler reads and strips the two entry fields, rejects missing paths and
a nonexistent source directory with a message box before doing anything
else, then calls `os.makedirs(out, exist_ok=True)` (which creates missing
parent directories and succeeds if the directory already exists), updates
the UI, clears the output pane, and only then starts the worker thread that
launches the external script.  Whether the output directory exists is never
consulted. -/

/-- An observable action of `run_organizer`, in program order. -/
inductive Effect where
  | showWarning (title msg : String)
  | showError (title msg : String)
  | makedirs (path : String)
  | disableRunButton
  | setStatus (s : String)
  | startProgress
  | clearOutput
  | spawn (cmd : List String)
deriving DecidableEq

/-- Is this effect the launch of the external process (starting the worker
thread that runs the organize script)? -/
def Effect.isSpawn : Effect → Bool
  | .spawn _ => true
  | _ => false

/-- Constant `ORGANIZE_SCRIPT = BASE_DIR / "organize_files.sh"` (line 39), with
`BASE_DIR = Path.cwd()` passed in explicitly. -/
def ORGANIZE_SCRIPT (baseDir : String) : String :=
  baseDir ++ "/organize_files.sh"

/-- Method `run_organizer` (lines 313-336) as its ordered list of observable
actions.  `srcIsDir` is the value of `os.path.isdir(src)`. -/
def run_organizer (baseDir src_var out_var : String) (srcIsDir : Bool) :
    List Effect :=
  let src := pyStrip src_var
  let out := pyStrip out_var
  if src = "" ∨ out = "" then
    [Effect.showWarning "Missing paths" "Please select both source and output folders."]
  else if ¬ srcIsDir then
    [Effect.showError "Invalid source" ("Source folder does not exist: " ++ src)]
  else
    [Effect.makedirs out, Effect.disableRunButton,
     Effect.setStatus "Running organizer...", Effect.startProgress,
     Effect.clearOutput, Effect.spawn [ORGANIZE_SCRIPT baseDir, src, out]]

/-- C5: with an empty (after stripping) source or output path, or a source
directory that does not exist, `run_organizer` performs exactly one
synchronous validation report and nothing else — in particular no external
process is launched and no background work starts. -/
theorem validation_before_launch (baseDir src out : String) (srcIsDir : Bool)
    (h : pyStrip src = "" ∨ pyStrip out = "" ∨ srcIsDir = false) :
    (run_organizer baseDir src out srcIsDir).all (fun e => ¬ e.isSpawn) = true ∧
    (run_organizer baseDir src out srcIsDir =
       [Effect.showWarning "Missing paths"
          "Please select both source and output folders."] ∨
     run_organizer baseDir src out srcIsDir =
       [Effect.showError "Invalid source"
          ("Source folder does not exist: " ++ pyStrip src)]) := by
  rw [run_organizer]
  rcases h with h | h | h
  · simp [h, Effect.isSpawn]
  · simp [h, Effect.isSpawn]
  · subst h
    by_cases hs : pyStrip src = "" <;> by_cases ho : pyStrip out = "" <;>
      simp [hs, ho, Effect.isSpawn]

/-- Witness for C5: an empty source field is rejected with exactly one
warning and no spawn. -/
theorem validation_before_launch_witness :
    (run_organizer "/base" "" "/tmp/out" true).all (fun e => ¬ e.isSpawn) = true ∧
    (run_organizer "/base" "" "/tmp/out" true =
       [Effect.showWarning "Missing paths"
          "Please select both source and output folders."] ∨
     run_organizer "/base" "" "/tmp/out" true =
       [Effect.showError "Invalid source"
          ("Source folder does not exist: " ++ pyStrip "")]) :=
  validation_before_launch "/base" "" "/tmp/out" true (Or.inl (by decide))

/-- C9: with both paths non-empty and an existing source directory, the run
proceeds with no validation failure — the output directory's existence is
never consulted (it is not even an input of the handler) — and the trace is
exactly `makedirs` on the output path (which creates it and its parents if
missing) followed by UI updates and then the process launch: `makedirs`
strictly precedes `spawn`. -/
theorem makedirs_before_spawn (baseDir src out : String) (srcIsDir : Bool)
    (h1 : pyStrip src ≠ "") (h2 : pyStrip out ≠ "") (h3 : srcIsDir = true) :
    run_organizer baseDir src out srcIsDir =
      [Effect.makedirs (pyStrip out), Effect.disableRunButton,
       Effect.setStatus "Running organizer...", Effect.startProgress,
       Effect.clearOutput,
       Effect.spawn [ORGANIZE_SCRIPT baseDir, pyStrip src, pyStrip out]] := by
  subst h3
  rw [run_organizer]
  simp [h1, h2]

/-- Witness for C9: a concrete valid invocation produces the creation of the
output directory followed by the launch. -/
theorem makedirs_before_spawn_witness :
    run_organizer "/base" "/src" "/out" true =
      [Effect.makedirs (pyStrip "/out"), Effect.disableRunButton,
       Effect.setStatus "Running organizer...", Effect.startProgress,
       Effect.clearOutput,
       Effect.spawn [ORGANIZE_SCRIPT "/base", pyStrip "/src", pyStrip "/out"]] :=
  makedirs_before_spawn "/base" "/src" "/out" true (by decide) (by decide) rfl

/-! ### Live Log Tailer (`OrganizerApp.start_live_logs` / `_do_tail`,
lines 487-525)

The starter strips the directory field, forms the two fixed candidate paths
`<dir>/organizer.log` and `<dir>/integrity_check.log`, keeps those that are
files right now, and — unless the set is empty, in which case it only shows
a warning and returns — clears the log view, records offset 0 for each kept
path and runs the first tick immediately.  Each tick opens every tailed
file, seeks to the recorded offset, reads to end of file, collects a
section-headed part when the read is non-empty, stores the new offset, and
silently skips any file whose open/read raises.  The collected parts are
joined with a newline and appended to the log view in one insert. -/

/-- Model of `os.path.basename`: the characters after the last slash. -/
def basenameAux : List Char → List Char → List Char
  | [], acc => acc.reverse
  | ch :: rest, acc =>
      if ch = '/' then basenameAux rest [] else basenameAux rest (ch :: acc)

/-- Model of `os.path.basename(p)`. -/
def basename (p : String) : String :=
  ⟨basenameAux p.data []⟩

/-- Model of `fh.seek(pos); fh.read()`: the file content from offset `pos`
to end of file (empty when `pos` is at or past the end). -/
def readFrom (data : String) (pos : Nat) : String :=
  ⟨data.data.drop pos⟩

/-- State owned by the Logs tab: the running flag, the list of tailed paths
fixed at start time, the tail position table (`_tail_positions.get(p, 0)`
defaults missing entries to 0, so a total map starting at 0 is equivalent),
and the log view, as the list of blocks inserted since the last clear. -/
structure TailState where
  running : Bool
  livePaths : List String
  positions : String → Nat
  display : List String

/-- Body of the per-file `try` block of `_do_tail` (lines 513-521): reading
file `p` on top of the accumulated `(parts, positions)`.  A file whose
open/read raises (`contents p = none`) leaves both components untouched;
otherwise the part is appended only when the newly read data is non-empty,
and the offset is always advanced to `fh.tell()`. -/
def tailOne (contents : String → Option String) (acc : List String × (String → Nat))
    (p : String) : List String × (String → Nat) :=
  match contents p with
  | none => acc
  | some data =>
      let newData := readFrom data (acc.2 p)
      let parts :=
        if newData = "" then acc.1
        else acc.1 ++ ["--- " ++ basename p ++ " ---\n" ++ newData ++ "\n"]
      (parts, fun q => if q = p then acc.2 p + newData.length else acc.2 q)

/-- Method `_do_tail` (lines 508-525): one tick of the tailer.  When the
running flag is off the tick returns immediately; otherwise every tailed
file is read from its recorded offset, and the non-empty parts, joined with
a newline, are appended to the log view in a single insert. -/
def _do_tail (contents : String → Option String) (st : TailState) : TailState :=
  if st.running then
    let r := st.livePaths.foldl (tailOne contents) ([], st.positions)
    { st with
      positions := r.2
      display :=
        if r.1 = [] then st.display
        else st.display ++ [String.intercalate "\n" r.1] }
  else st

/-- Method `start_live_logs` (lines 487-506).  `orgIsFile` and `intIsFile`
are the values of `os.path.isfile` on the two fixed candidate paths at start
time; `contents` is the state of the file system for the immediately
executed first tick. -/
def start_live_logs (log_dir_var : String) (orgIsFile intIsFile : Bool)
    (contents : String → Option String) (st : TailState) : TailState :=
  let d := pyStrip log_dir_var
  if d = "" then st
  else
    let organizer_log := d ++ "/organizer.log"
    let integrity_log := d ++ "/integrity_check.log"
    let paths := (if orgIsFile then [organizer_log] else []) ++
                 (if intIsFile then [integrity_log] else [])
    if paths = [] then st
    else
      _do_tail contents
        { running := true, livePaths := paths, positions := fun _ => 0, display := [] }

theorem do_tail_running (c : String → Option String) (s : TailState) :
    (_do_tail c s).running = s.running := by
  rw [_do_tail]; split <;> rfl

theorem do_tail_livePaths (c : String → Option String) (s : TailState) :
    (_do_tail c s).livePaths = s.livePaths := by
  rw [_do_tail]; split <;> rfl

theorem foldl_tailOne_pos_skip (c : String → Option String) (paths : List String)
    (acc : List String × (String → Nat)) (q : String)
    (h : q ∉ paths ∨ c q = none) :
    (paths.foldl (tailOne c) acc).2 q = acc.2 q := by
  induction paths generalizing acc with
  | nil => rfl
  | cons p ps ih =>
    have hstep : (tailOne c acc p).2 q = acc.2 q := by
      cases hc : c p with
      | none => simp [tailOne, hc]
      | some data =>
        have hq : q ≠ p := by
          rcases h with h | h
          · exact fun e => h (e ▸ List.mem_cons_self p ps)
          · intro e; rw [e, hc] at h; exact Option.noConfusion h
        simp [tailOne, hc, hq]
    have h2 : q ∉ ps ∨ c q = none := by
      rcases h with h | h
      · exact Or.inl (fun hm => h (List.mem_cons_of_mem p hm))
      · exact Or.inr h
    rw [List.foldl_cons, ih (tailOne c acc p) h2, hstep]

theorem foldl_tailOne_all_none (c : String → Option String) (paths : List String)
    (acc : List String × (String → Nat)) (h : ∀ q ∈ paths, c q = none) :
    paths.foldl (tailOne c) acc = acc := by
  induction paths generalizing acc with
  | nil => rfl
  | cons p ps ih =>
    have hp : tailOne c acc p = acc := by
      simp [tailOne, h p (List.mem_cons_self p ps)]
    rw [List.foldl_cons, hp, ih acc (fun q hq => h q (List.mem_cons_of_mem p hq))]

/-- C7: on a tick, a tailed file that cannot be opened or read is silently
skipped: the tick never raises, the file's recorded offset is not advanced
(so a later successful read resumes from the last known-good offset), and if
every tailed file is unreadable nothing at all is appended to the view. -/
theorem tail_failure_skipped (c : String → Option String) (st : TailState)
    (p : String) (hp : c p = none) :
    (_do_tail c st).positions p = st.positions p ∧
    ((∀ q ∈ st.livePaths, c q = none) → (_do_tail c st).display = st.display) := by
  constructor
  · rw [_do_tail]
    split
    · exact foldl_tailOne_pos_skip c st.livePaths ([], st.positions) p (Or.inr hp)
    · rfl
  · intro hall
    rw [_do_tail]
    split
    · rw [foldl_tailOne_all_none c st.livePaths ([], st.positions) hall]
      simp
    · rfl

/-- Witness for C7: with the single tailed file unreadable, a tick leaves
both the offset and the log view unchanged. -/
theorem tail_failure_skipped_witness :
    (_do_tail (fun _ => none)
        ⟨true, ["logs/organizer.log"], fun _ => 7, ["old"]⟩).positions
        "logs/organizer.log" = 7 ∧
    (_do_tail (fun _ => none)
        ⟨true, ["logs/organizer.log"], fun _ => 7, ["old"]⟩).display = ["old"] :=
  ⟨(tail_failure_skipped (fun _ => none)
      ⟨true, ["logs/organizer.log"], fun _ => 7, ["old"]⟩ "logs/organizer.log" rfl).1,
   (tail_failure_skipped (fun _ => none)
      ⟨true, ["logs/organizer.log"], fun _ => 7, ["old"]⟩ "logs/organizer.log" rfl).2
     (fun _ _ => rfl)⟩

theorem data_append (a b : String) : (a ++ b).data = a.data ++ b.data := by
  cases a; cases b; rfl

theorem readFrom_append (a b : String) : readFrom (a ++ b) a.length = b := by
  rw [readFrom, data_append]
  rw [show a.length = a.data.length from rfl, List.drop_left]

/-- One tick over a single tailed file `p` holding `data`: when the newly
read portion is non-empty, it is appended under the file's section header
and the offset advances by its length. -/
theorem do_tail_single (c : String → Option String) (st : TailState) (p : String)
    (data : String) (hrun : st.running = true) (hlp : st.livePaths = [p])
    (hc : c p = some data) (hne : readFrom data (st.positions p) ≠ "") :
    (_do_tail c st).display =
      st.display ++
        ["--- " ++ basename p ++ " ---\n" ++ readFrom data (st.positions p) ++ "\n"] ∧
    (_do_tail c st).positions p =
      st.positions p + (readFrom data (st.positions p)).length ∧
    (_do_tail c st).running = true ∧
    (_do_tail c st).livePaths = [p] := by
  rw [_do_tail, hrun, hlp]
  have hsing : ∀ t : String, String.intercalate "\n" [t] = t := fun t => rfl
  simp [tailOne, hc, hne, hsing]

theorem start_live_logs_org_only (v : String) (c : String → Option String)
    (st : TailState) (hd : pyStrip v ≠ "") :
    start_live_logs v true false c st =
      _do_tail c
        { running := true, livePaths := [pyStrip v ++ "/organizer.log"],
          positions := fun _ => 0, display := [] } := by
  rw [start_live_logs]
  simp [hd]

/-- C3: tailer round trip.  Writing `X` to a fresh `organizer.log`, starting
the tailer (whose first tick runs immediately), then appending `Y` before
the next tick, leaves the log view holding exactly the section-headed `X`
block and then the section-headed `Y` block — `X` once and `Y` once, in that
order — with the recorded offset equal to the file's final length. -/
theorem tailer_round_trip (v X Y : String) (c1 c2 : String → Option String)
    (st : TailState) (hd : pyStrip v ≠ "") (hX : X ≠ "") (hY : Y ≠ "")
    (h1 : c1 (pyStrip v ++ "/organizer.log") = some X)
    (h2 : c2 (pyStrip v ++ "/organizer.log") = some (X ++ Y)) :
    (start_live_logs v true false c1 st).display =
      ["--- " ++ basename (pyStrip v ++ "/organizer.log") ++ " ---\n" ++ X ++ "\n"] ∧
    (_do_tail c2 (start_live_logs v true false c1 st)).display =
      ["--- " ++ basename (pyStrip v ++ "/organizer.log") ++ " ---\n" ++ X ++ "\n",
       "--- " ++ basename (pyStrip v ++ "/organizer.log") ++ " ---\n" ++ Y ++ "\n"] ∧
    (_do_tail c2 (start_live_logs v true false c1 st)).positions
        (pyStrip v ++ "/organizer.log") = (X ++ Y).length := by
  rw [start_live_logs_org_only v c1 st hd]
  set p := pyStrip v ++ "/organizer.log" with hp
  set st0 : TailState :=
    { running := true, livePaths := [p], positions := fun _ => 0, display := [] }
    with hst0
  have h0 : st0.positions p = 0 := rfl
  have hr0 : readFrom X (st0.positions p) = X := by
    rw [h0]; rfl
  obtain ⟨d1, q1, r1, l1⟩ :=
    do_tail_single c1 st0 p X rfl rfl h1 (by rw [hr0]; exact hX)
  rw [hr0] at d1 q1
  have hq1 : (_do_tail c1 st0).positions p = X.length := by
    rw [q1, Nat.zero_add]
  have hr1 : readFrom (X ++ Y) ((_do_tail c1 st0).positions p) = Y := by
    rw [hq1, readFrom_append]
  obtain ⟨d2, q2, _, _⟩ :=
    do_tail_single c2 (_do_tail c1 st0) p (X ++ Y) r1 l1 h2 (by rw [hr1]; exact hY)
  rw [hr1] at d2 q2
  refine ⟨d1, ?_, ?_⟩
  · rw [d2, d1]
    rfl
  · rw [q2, hq1, String.length_append]

/-- Witness for C3: the concrete round trip with directory field `logs`,
first write `X`, appended write `Y`. -/
theorem tailer_round_trip_witness :
    (start_live_logs "logs" true false (fun _ => some "X")
        ⟨false, [], fun _ => 0, []⟩).display =
      ["--- " ++ basename (pyStrip "logs" ++ "/organizer.log") ++ " ---\n" ++ "X" ++ "\n"] ∧
    (_do_tail (fun _ => some ("X" ++ "Y"))
        (start_live_logs "logs" true false (fun _ => some "X")
          ⟨false, [], fun _ => 0, []⟩)).display =
      ["--- " ++ basename (pyStrip "logs" ++ "/organizer.log") ++ " ---\n" ++ "X" ++ "\n",
       "--- " ++ basename (pyStrip "logs" ++ "/organizer.log") ++ " ---\n" ++ "Y" ++ "\n"] ∧
    (_do_tail (fun _ => some ("X" ++ "Y"))
        (start_live_logs "logs" true false (fun _ => some "X")
          ⟨false, [], fun _ => 0, []⟩)).positions
        (pyStrip "logs" ++ "/organizer.log") = ("X" ++ "Y").length :=
  tailer_round_trip "logs" "X" "Y" (fun _ => some "X") (fun _ => some ("X" ++ "Y"))
    ⟨false, [], fun _ => 0, []⟩ (by decide) (by decide) (by decide) rfl rfl

/-- C10: starting live logs considers only the two fixed names
`organizer.log` and `integrity_check.log` inside the chosen directory; each
is tailed only if it is a file at start time; when neither exists, nothing
starts: the state is returned unchanged, so no offsets are recorded and no
tick is scheduled.  Moreover a tick never enlarges the tailed set and never
touches the offset of a path outside it, so a file created after the start
is never picked up. -/
theorem start_live_logs_fixed_set (v : String) (b1 b2 : Bool)
    (c : String → Option String) (st : TailState) (hd : pyStrip v ≠ "") :
    (b1 = false → b2 = false → start_live_logs v b1 b2 c st = st) ∧
    (b1 = true ∨ b2 = true →
      (start_live_logs v b1 b2 c st).running = true ∧
      (start_live_logs v b1 b2 c st).livePaths =
        (if b1 then [pyStrip v ++ "/organizer.log"] else []) ++
        (if b2 then [pyStrip v ++ "/integrity_check.log"] else [])) ∧
    (∀ c2 s, (_do_tail c2 s).livePaths = s.livePaths) ∧
    (∀ c2 s q, q ∉ s.livePaths → (_do_tail c2 s).positions q = s.positions q) := by
  refine ⟨?_, ?_, do_tail_livePaths, ?_⟩
  · intro e1 e2
    subst e1; subst e2
    rw [start_live_logs]
    simp [hd]
  · intro hb
    have hne : ((if b1 then [pyStrip v ++ "/organizer.log"] else []) ++
        (if b2 then [pyStrip v ++ "/integrity_check.log"] else [])) ≠ [] := by
      cases b1 <;> cases b2 <;> simp_all
    rw [start_live_logs]
    simp [if_neg hd, if_neg hne, do_tail_running, do_tail_livePaths]
    rcases hb with hb | hb <;> simp [hb, do_tail_running, do_tail_livePaths]
  · intro c2 s q hq
    rw [_do_tail]
    split
    · exact foldl_tailOne_pos_skip c2 s.livePaths ([], s.positions) q (Or.inl hq)
    · rfl

/-- Witness for C10: with neither log file present the state is unchanged;
with only `organizer.log` present the tailed set is exactly that one path. -/
theorem start_live_logs_fixed_set_witness :
    start_live_logs "logs" false false (fun _ => none) ⟨false, [], fun _ => 0, []⟩ =
      ⟨false, [], fun _ => 0, []⟩ ∧
    (start_live_logs "logs" true false (fun _ => none)
        ⟨false, [], fun _ => 0, []⟩).livePaths =
      (if true then [pyStrip "logs" ++ "/organizer.log"] else []) ++
        (if false then [pyStrip "logs" ++ "/integrity_check.log"] else []) :=
  ⟨(start_live_logs_fixed_set "logs" false false (fun _ => none)
      ⟨false, [], fun _ => 0, []⟩ (by decide)).1 rfl rfl,
   ((start_live_logs_fixed_set "logs" true false (fun _ => none)
      ⟨false, [], fun _ => 0, []⟩ (by decide)).2.1 (Or.inl rfl)).2⟩

end OrganizerGui
